import Mathlib

/-!
Verification of the ADB image watcher (src/watcher/adb_watcher.py).

The watcher polls a remote directory over adb, filters image filenames out
of the listing, pulls each new file, deduplicates by content hash, posts
unique images to a bridge endpoint, and records handled filenames and
content hashes in a two-document JSON ledger.

Strings are modelled as lists of characters (Lean's built-in String
primitives do not reduce in the kernel); every Python string operation the
watcher uses (strip, lower, startswith, endswith, split, substring test)
is given an executable character-level model below.
-/

namespace AdbWatcher

abbrev Str := List Char

/-- Character lowering, as Python's str.lower acts on ASCII letters. -/
def charLower (c : Char) : Char :=
  if c.isUpper then Char.ofNat (c.toNat + 32) else c

/-- Model of str.lower. -/
def strToLower (s : Str) : Str := s.map charLower

/-- Model of str.strip: drop whitespace from both ends. -/
def strTrim (s : Str) : Str :=
  ((s.dropWhile Char.isWhitespace).reverse.dropWhile Char.isWhitespace).reverse

/-- Model of str.startswith. -/
def strStartsWith (s pat : Str) : Bool := pat.isPrefixOf s

/-- Model of str.endswith. -/
def strEndsWith (s pat : Str) : Bool := pat.isSuffixOf s

/-- Model of str.split on a newline, as used on the remote listing output. -/
def splitLines : Str → List Str
  | [] => [[]]
  | c :: rest =>
    match splitLines rest with
    | [] => if c = '\n' then [[], [c]] else [[c]]
    | l :: ls => if c = '\n' then [] :: l :: ls else (c :: l) :: ls

/-- Model of Python's substring containment test (pat in s). -/
def containsSub (pat : Str) : Str → Bool
  | [] => pat.isPrefixOf ([] : Str)
  | c :: rest => pat.isPrefixOf (c :: rest) || containsSub pat rest

/-- Model of os.path.join with a separator. -/
def pathJoin (dir file : Str) : Str := dir ++ '/' :: file

/-- The image extension allow-list from get_remote_files. -/
def IMAGE_EXTS : List Str :=
  [".jpg".data, ".jpeg".data, ".png".data, ".gif".data, ".webp".data]

/-- Python set.add on a set represented as a duplicate-free list:
inserting an element already present leaves the set unchanged. -/
def setAdd (x : Str) (l : List Str) : List Str := if x ∈ l then l else x :: l

/-- In-memory mirror of the ledger: the module-level sets
_processed_files and _processed_hashes, represented as lists with
set semantics. -/
structure WatcherState where
  processedFiles : List Str
  processedHashes : List Str
deriving DecidableEq

/-- One persisted JSON document as the loader sees it: absent on disk,
unreadable or malformed, or readable with an item list and a timestamp. -/
inductive DocState where
  | absent
  | corrupt
  | good (items : List Str) (updatedAt : Str)
deriving DecidableEq

/-- The two ledger documents, processed_files.json and processed_hashes.json. -/
structure LedgerDocs where
  filesDoc : DocState
  hashesDoc : DocState
deriving DecidableEq

/-- save_processed_data: each document is fully rewritten with the set's
elements as a list plus a fresh timestamp. -/
def save_processed_data (now : Str) (st : WatcherState) : LedgerDocs :=
  { filesDoc := DocState.good st.processedFiles now,
    hashesDoc := DocState.good st.processedHashes now }

/-- Reading one document in load_processed_data: the item list is turned
back into a set; a missing or corrupt document degrades to the empty set
(the load failure is only logged). -/
def loadDoc (d : DocState) : List Str :=
  match d with
  | DocState.good items _ => items.dedup
  | _ => []

/-- load_processed_data: each document is loaded independently, so a
failure on one does not affect the other. -/
def load_processed_data (docs : LedgerDocs) : WatcherState :=
  { processedFiles := loadDoc docs.filesDoc,
    processedHashes := loadDoc docs.hashesDoc }

/-- Outcome of one subprocess.run invocation inside adb_command. -/
inductive RunOutcome where
  | completed (stdout : Str) (returncode : Int)
  | timedOut
  | raised (msg : Str)

/-- adb_command: returns stripped stdout and the exit status; a timeout or
any other exception is caught and surfaces as exit status -1. -/
def adb_command (r : RunOutcome) : Str × Int :=
  match r with
  | RunOutcome.completed out code => (strTrim out, code)
  | RunOutcome.timedOut => ("TIMEOUT".data, -1)
  | RunOutcome.raised msg => (msg, -1)

/-- The per-line filename test in get_remote_files, applied to an
already-stripped line. -/
def goodListingLine (filename : Str) : Bool :=
  !filename.isEmpty && !strStartsWith filename "ls:".data &&
    !strStartsWith filename "total".data &&
    IMAGE_EXTS.any (fun ext => strEndsWith (strToLower filename) ext)

/-- One iteration of the line loop in get_remote_files: strip the line and
keep it when it passes the filename test. -/
def listingLineFilter (line : Str) : Option Str :=
  let filename := strTrim line
  if goodListingLine filename then some filename else none

/-- The line loop of get_remote_files over the split output. -/
def parse_listing (output : Str) : List Str :=
  (splitLines output).filterMap listingLineFilter

/-- get_remote_files: empty on a failed command, empty output or a
"No such file" marker, else the filtered listing in received order. -/
def get_remote_files (r : RunOutcome) : List Str :=
  let res := adb_command r
  if res.2 ≠ 0 || res.1.isEmpty || containsSub "No such file".data res.1 then []
  else parse_listing res.1

/-- pull_file: runs the adb pull and returns the local destination path
exactly when the command exited with status zero and the destination
exists afterwards; every other case yields none. The remote path only
shapes the command string, so it does not appear in the result. -/
def pull_file (r : RunOutcome) (fsExists : Str → Bool) (filename localPath : Str) :
    Option Str :=
  let loc := pathJoin localPath filename
  let res := adb_command r
  if res.2 = 0 ∧ fsExists loc then some loc else none

/-- Outcome of the HTTP POST inside send_to_bridge: a response with a
status code and whether its body parses as JSON, a connection error, or
any other exception. -/
inductive PostResult where
  | response (status : Nat) (bodyParses : Bool)
  | connectionError
  | raised
deriving DecidableEq

/-- The environment a run interacts with: the local filesystem contents
(none models an unreadable file), the content digest function, the adb
pull outcome and post-pull filesystem state per filename, and the bridge
endpoint's behaviour per filename. -/
structure Env where
  contents : Str → Option (List Nat)
  digest : List Nat → Str
  pullOutcome : Str → RunOutcome
  fsExistsAfterPull : Str → Bool
  post : Str → PostResult

/-- compute_file_hash: digest of the full file bytes, none when the read
raises. -/
def compute_file_hash (env : Env) (filepath : Str) : Option Str :=
  (env.contents filepath).map env.digest

/-- is_duplicate_content: true iff the digest was computed and is already
in the hash set; a failed digest is treated as not a duplicate. -/
def is_duplicate_content (env : Env) (hashes : List Str) (filepath : Str) : Bool :=
  match compute_file_hash env filepath with
  | some h => decide (h ∈ hashes)
  | none => false

/-- mark_content_processed: add the digest to the hash set when it can be
computed; a failed digest adds nothing. -/
def mark_content_processed (env : Env) (hashes : List Str) (filepath : Str) : List Str :=
  match compute_file_hash env filepath with
  | some h => setAdd h hashes
  | none => hashes

/-- send_to_bridge: true only when the file could be read and the POST
came back as HTTP 200 with a parseable JSON body; any other status, a
connection failure, an unreadable file or any other exception yields
false. -/
def send_to_bridge (env : Env) (filepath : Str) (r : PostResult) : Bool :=
  match env.contents filepath with
  | none => false
  | some _ =>
    match r with
    | PostResult.response status bodyParses => status == 200 && bodyParses
    | PostResult.connectionError => false
    | PostResult.raised => false

/-- Observable external calls of one poll iteration: a pull attempt for a
filename, and a delivery attempt with the bridge's boolean result. -/
inductive Event where
  | fetch (filename : Str)
  | deliver (filename : Str) (ok : Bool)
deriving DecidableEq

/-- The filename an event concerns. -/
def Event.filename : Event → Str
  | Event.fetch f => f
  | Event.deliver f _ => f

/-- The per-filename body of the watch loop (main, lines 388-409):
skip filenames already processed; otherwise pull, and when the pull
succeeds check for duplicate content, delivering and hash-marking
non-duplicates; in every branch the filename itself is marked processed. -/
def processFile (env : Env) (localPath : Str) (st : WatcherState) (filename : Str) :
    WatcherState × List Event :=
  if filename ∈ st.processedFiles then (st, [])
  else
    match pull_file (env.pullOutcome filename) env.fsExistsAfterPull filename localPath with
    | some localFile =>
      if is_duplicate_content env st.processedHashes localFile then
        (⟨setAdd filename st.processedFiles, st.processedHashes⟩,
         [Event.fetch filename])
      else
        (⟨setAdd filename st.processedFiles,
          mark_content_processed env st.processedHashes localFile⟩,
         [Event.fetch filename,
          Event.deliver filename (send_to_bridge env localFile (env.post filename))])
    | none =>
      (⟨setAdd filename st.processedFiles, st.processedHashes⟩,
       [Event.fetch filename])

/-- One poll iteration: the listed filenames are handled strictly in
listing order, each through processFile. -/
def pollIteration (env : Env) (localPath : Str) (st : WatcherState) (files : List Str) :
    WatcherState × List Event :=
  match files with
  | [] => (st, [])
  | f :: rest =>
    let step := processFile env localPath st f
    let recur := pollIteration env localPath step.1 rest
    (recur.1, step.2 ++ recur.2)

/-- The run-start baseline (main, lines 369-375): when the processed-names
set is empty, every filename in the current remote listing is added to it;
nothing is pulled and nothing is delivered, and the hash set is untouched. -/
def baselineStep (st : WatcherState) (listing : RunOutcome) : WatcherState × List Event :=
  if st.processedFiles.isEmpty then
    ({ st with
       processedFiles :=
         (get_remote_files listing).foldl (fun s f => setAdd f s) st.processedFiles },
     [])
  else (st, [])

theorem mem_setAdd_of_mem {x y : Str} {l : List Str} (h : x ∈ l) : x ∈ setAdd y l := by
  unfold setAdd
  split
  · exact h
  · exact List.mem_cons_of_mem _ h

theorem mem_setAdd_self (x : Str) (l : List Str) : x ∈ setAdd x l := by
  unfold setAdd
  split
  · assumption
  · exact List.mem_cons_self x l

theorem setAdd_toFinset (x : Str) (l : List Str) :
    (setAdd x l).toFinset = insert x l.toFinset := by
  unfold setAdd
  split
  · rw [Finset.insert_eq_self.mpr (by simpa using (by assumption : x ∈ l))]
  · simp

theorem processFile_skip (env : Env) (localPath : Str) (st : WatcherState) (f : Str)
    (hf : f ∈ st.processedFiles) : processFile env localPath st f = (st, []) := by
  unfold processFile
  rw [if_pos hf]

theorem processFile_event_filename (env : Env) (localPath : Str) (st : WatcherState)
    (f : Str) : ∀ e ∈ (processFile env localPath st f).2, e.filename = f := by
  intro e he
  unfold processFile at he
  split at he
  · simp at he
  · split at he
    · split at he
      · simp at he
        subst he
        rfl
      · simp at he
        rcases he with h | h <;> subst h <;> rfl
    · simp at he
      subst he
      rfl

theorem processFile_files_mono (env : Env) (localPath : Str) (st : WatcherState)
    {f g : Str} (h : g ∈ st.processedFiles) :
    g ∈ (processFile env localPath st f).1.processedFiles := by
  unfold processFile
  split
  · exact h
  · split
    · split <;> exact mem_setAdd_of_mem h
    · exact mem_setAdd_of_mem h

theorem pollIteration_processed (env : Env) (localPath : Str) (g : Str) :
    ∀ (files : List Str) (st : WatcherState), g ∈ st.processedFiles →
      g ∈ (pollIteration env localPath st files).1.processedFiles ∧
      ∀ e ∈ (pollIteration env localPath st files).2, e.filename ≠ g := by
  intro files
  induction files with
  | nil => exact fun st h => ⟨h, by simp [pollIteration]⟩
  | cons f rest ih =>
    intro st h
    have hstep : g ∈ (processFile env localPath st f).1.processedFiles :=
      processFile_files_mono env localPath st h
    have hevs : ∀ e ∈ (processFile env localPath st f).2, e.filename ≠ g := by
      by_cases hfg : f = g
      · subst hfg
        rw [processFile_skip env localPath st f h]
        simp
      · intro e he hcontra
        exact hfg ((processFile_event_filename env localPath st f e he).symm.trans hcontra)
    have hrest := ih (processFile env localPath st f).1 hstep
    refine ⟨by simpa [pollIteration] using hrest.1, ?_⟩
    intro e he
    simp only [pollIteration, List.mem_append] at he
    rcases he with he | he
    · exact hevs e he
    · exact hrest.2 e he

theorem load_save_processedFiles (now : Str) (st : WatcherState) :
    (load_processed_data (save_processed_data now st)).processedFiles =
      st.processedFiles.dedup := rfl

theorem load_save_processedHashes (now : Str) (st : WatcherState) :
    (load_processed_data (save_processed_data now st)).processedHashes =
      st.processedHashes.dedup := rfl

/-- Claim C1: once a filename is in the processed-names set, no later poll
iteration pulls or delivers it again, it stays in the set, and after the
ledger is persisted and reloaded (a process restart) it is still in the
set and still never pulled or delivered. -/
theorem processed_name_never_refetched_or_redelivered
    (env : Env) (localPath now : Str) (st : WatcherState) (files : List Str) (f : Str)
    (hf : f ∈ st.processedFiles) :
    (∀ e ∈ (pollIteration env localPath st files).2, e.filename ≠ f) ∧
    f ∈ (pollIteration env localPath st files).1.processedFiles ∧
    f ∈ (load_processed_data (save_processed_data now st)).processedFiles ∧
    (∀ e ∈ (pollIteration env localPath
        (load_processed_data (save_processed_data now st)) files).2, e.filename ≠ f) := by
  have hload : f ∈ (load_processed_data (save_processed_data now st)).processedFiles := by
    rw [load_save_processedFiles]
    exact List.mem_dedup.mpr hf
  have h1 := pollIteration_processed env localPath f files st hf
  have h2 := pollIteration_processed env localPath f files
    (load_processed_data (save_processed_data now st)) hload
  exact ⟨h1.2, h1.1, hload, h2.2⟩

/-- A concrete environment: every pull succeeds, every file reads as one
byte, every digest is the same, the bridge accepts every post. -/
def envOK : Env :=
  { contents := fun _ => some [1],
    digest := fun _ => "h".data,
    pullOutcome := fun _ => RunOutcome.completed [] 0,
    fsExistsAfterPull := fun _ => true,
    post := fun _ => PostResult.response 200 true }

theorem processed_name_never_refetched_or_redelivered_witness :
    (∀ e ∈ (pollIteration envOK "loc".data
        ⟨["a.jpg".data], []⟩ ["a.jpg".data]).2, e.filename ≠ "a.jpg".data) ∧
    "a.jpg".data ∈ (pollIteration envOK "loc".data
        ⟨["a.jpg".data], []⟩ ["a.jpg".data]).1.processedFiles ∧
    "a.jpg".data ∈ (load_processed_data (save_processed_data []
        ⟨["a.jpg".data], []⟩)).processedFiles ∧
    (∀ e ∈ (pollIteration envOK "loc".data
        (load_processed_data (save_processed_data [] ⟨["a.jpg".data], []⟩))
        ["a.jpg".data]).2, e.filename ≠ "a.jpg".data) :=
  processed_name_never_refetched_or_redelivered envOK "loc".data []
    ⟨["a.jpg".data], []⟩ ["a.jpg".data] "a.jpg".data (by decide)

theorem processFile_deliver (env : Env) (localPath : Str) (st : WatcherState)
    (f localFile : Str)
    (hf : f ∉ st.processedFiles)
    (hpull : pull_file (env.pullOutcome f) env.fsExistsAfterPull f localPath = some localFile)
    (hnodup : is_duplicate_content env st.processedHashes localFile = false) :
    processFile env localPath st f =
      (⟨setAdd f st.processedFiles, mark_content_processed env st.processedHashes localFile⟩,
       [Event.fetch f,
        Event.deliver f (send_to_bridge env localFile (env.post f))]) := by
  unfold processFile
  rw [if_neg hf, hpull]
  simp [hnodup]

theorem processFile_dup (env : Env) (localPath : Str) (st : WatcherState)
    (f localFile : Str)
    (hf : f ∉ st.processedFiles)
    (hpull : pull_file (env.pullOutcome f) env.fsExistsAfterPull f localPath = some localFile)
    (hdup : is_duplicate_content env st.processedHashes localFile = true) :
    processFile env localPath st f =
      (⟨setAdd f st.processedFiles, st.processedHashes⟩, [Event.fetch f]) := by
  unfold processFile
  rw [if_neg hf, hpull]
  simp [hdup]

theorem contents_isSome_of_hash (env : Env) {localFile h : Str}
    (hhash : compute_file_hash env localFile = some h) :
    ∃ bytes, env.contents localFile = some bytes := by
  unfold compute_file_hash at hhash
  cases hc : env.contents localFile with
  | none => rw [hc] at hhash; simp at hhash
  | some bytes => exact ⟨bytes, rfl⟩

theorem send_to_bridge_500 (env : Env) {localFile : Str} {bytes : List Nat}
    (hb : env.contents localFile = some bytes) (bodyParses : Bool) :
    send_to_bridge env localFile (PostResult.response 500 bodyParses) = false := by
  unfold send_to_bridge
  rw [hb]
  rfl

/-- Claim C2: a fetched, non-duplicate file has its digest added to the hash
set after the delivery attempt whatever the delivery result; the bridge
function reports failure on an HTTP 500 response, and the filename is
never delivered again on any later poll. -/
theorem failed_delivery_still_marks_hash
    (env : Env) (localPath : Str) (st : WatcherState) (f localFile h : Str)
    (hf : f ∉ st.processedFiles)
    (hpull : pull_file (env.pullOutcome f) env.fsExistsAfterPull f localPath = some localFile)
    (hhash : compute_file_hash env localFile = some h)
    (hnew : h ∉ st.processedHashes) :
    Event.deliver f (send_to_bridge env localFile (env.post f))
      ∈ (processFile env localPath st f).2 ∧
    h ∈ (processFile env localPath st f).1.processedHashes ∧
    (∀ bodyParses, send_to_bridge env localFile (PostResult.response 500 bodyParses) = false) ∧
    (∀ files, ∀ e ∈ (pollIteration env localPath (processFile env localPath st f).1 files).2,
      e.filename ≠ f) := by
  have hnodup : is_duplicate_content env st.processedHashes localFile = false := by
    unfold is_duplicate_content
    rw [hhash]
    simpa using hnew
  have hmark : mark_content_processed env st.processedHashes localFile = setAdd h st.processedHashes := by
    unfold mark_content_processed
    rw [hhash]
  rw [processFile_deliver env localPath st f localFile hf hpull hnodup]
  obtain ⟨bytes, hb⟩ := contents_isSome_of_hash env hhash
  refine ⟨by simp, ?_, fun bodyParses => send_to_bridge_500 env hb bodyParses, ?_⟩
  · rw [hmark]
    exact mem_setAdd_self h st.processedHashes
  · intro files e he
    exact (pollIteration_processed env localPath f files
      ⟨setAdd f st.processedFiles, mark_content_processed env st.processedHashes localFile⟩
      (mem_setAdd_self f st.processedFiles)).2 e he

/-- A concrete environment whose bridge endpoint answers HTTP 500 to
every post. -/
def env500 : Env :=
  { contents := fun _ => some [1],
    digest := fun _ => "h".data,
    pullOutcome := fun _ => RunOutcome.completed [] 0,
    fsExistsAfterPull := fun _ => true,
    post := fun _ => PostResult.response 500 true }

theorem failed_delivery_still_marks_hash_witness :
    Event.deliver "a.jpg".data
        (send_to_bridge env500 (pathJoin "loc".data "a.jpg".data) (env500.post "a.jpg".data))
      ∈ (processFile env500 "loc".data ⟨[], []⟩ "a.jpg".data).2 ∧
    "h".data ∈ (processFile env500 "loc".data ⟨[], []⟩ "a.jpg".data).1.processedHashes ∧
    (∀ bodyParses, send_to_bridge env500 (pathJoin "loc".data "a.jpg".data)
        (PostResult.response 500 bodyParses) = false) ∧
    (∀ files, ∀ e ∈ (pollIteration env500 "loc".data
        (processFile env500 "loc".data ⟨[], []⟩ "a.jpg".data).1 files).2,
      e.filename ≠ "a.jpg".data) :=
  failed_delivery_still_marks_hash env500 "loc".data ⟨[], []⟩ "a.jpg".data
    (pathJoin "loc".data "a.jpg".data) "h".data
    (by decide) (by decide) (by decide) (by decide)

/-- Claim C3 counterexample: in env500 the delivery attempt for a.jpg reports
failure, yet its digest is added to the hash set — refuting the claim
that a digest enters the hash set only after a successful delivery. -/
theorem digest_only_after_success_counterexample :
    (processFile env500 "loc".data ⟨[], []⟩ "a.jpg".data).2 =
      [Event.fetch "a.jpg".data, Event.deliver "a.jpg".data false] ∧
    "h".data ∈ (processFile env500 "loc".data ⟨[], []⟩ "a.jpg".data).1.processedHashes := by
  decide

/-- Claim C3 amended: a fetched non-duplicate file's digest is recorded by
mark_content_processed right after the delivery attempt, regardless of
the delivery's boolean result. -/
theorem digest_marked_after_delivery_attempt
    (env : Env) (localPath : Str) (st : WatcherState) (f localFile : Str)
    (hf : f ∉ st.processedFiles)
    (hpull : pull_file (env.pullOutcome f) env.fsExistsAfterPull f localPath = some localFile)
    (hnodup : is_duplicate_content env st.processedHashes localFile = false) :
    (processFile env localPath st f).1.processedHashes =
      mark_content_processed env st.processedHashes localFile ∧
    Event.deliver f (send_to_bridge env localFile (env.post f))
      ∈ (processFile env localPath st f).2 := by
  rw [processFile_deliver env localPath st f localFile hf hpull hnodup]
  simp

theorem digest_marked_after_delivery_attempt_witness :
    (processFile env500 "loc".data ⟨[], []⟩ "b.jpg".data).1.processedHashes =
      mark_content_processed env500 ([] : List Str) (pathJoin "loc".data "b.jpg".data) ∧
    Event.deliver "b.jpg".data
        (send_to_bridge env500 (pathJoin "loc".data "b.jpg".data) (env500.post "b.jpg".data))
      ∈ (processFile env500 "loc".data ⟨[], []⟩ "b.jpg".data).2 :=
  digest_marked_after_delivery_attempt env500 "loc".data ⟨[], []⟩ "b.jpg".data
    (pathJoin "loc".data "b.jpg".data) (by decide) (by decide) (by decide)

theorem mem_setAdd_iff {x y : Str} {l : List Str} : x ∈ setAdd y l ↔ x = y ∨ x ∈ l := by
  unfold setAdd
  split
  · constructor
    · exact Or.inr
    · rintro (rfl | hx)
      · assumption
      · assumption
  · simp [List.mem_cons]

theorem foldl_setAdd_toFinset :
    ∀ (l init : List Str),
      (l.foldl (fun s f => setAdd f s) init).toFinset = init.toFinset ∪ l.toFinset := by
  intro l
  induction l with
  | nil => simp
  | cons x rest ih =>
    intro init
    simp only [List.foldl_cons, List.toFinset_cons]
    rw [ih (setAdd x init), setAdd_toFinset, Finset.insert_union, Finset.union_insert]

/-- Claim C4: when the processed-names set is empty at run start, the baseline
step marks exactly the filenames of the current remote listing as
processed, performs no pull and no delivery, and leaves the hash set
untouched. -/
theorem baseline_marks_all_without_delivery
    (st : WatcherState) (listing : RunOutcome)
    (hempty : st.processedFiles = []) :
    (baselineStep st listing).1.processedFiles.toFinset =
      (get_remote_files listing).toFinset ∧
    (∀ f ∈ get_remote_files listing, f ∈ (baselineStep st listing).1.processedFiles) ∧
    (baselineStep st listing).1.processedHashes = st.processedHashes ∧
    (baselineStep st listing).2 = [] := by
  have hb : st.processedFiles.isEmpty = true := by rw [hempty]; rfl
  have h1 : baselineStep st listing =
      ({ st with processedFiles :=
          (get_remote_files listing).foldl (fun s f => setAdd f s) st.processedFiles }, []) := by
    unfold baselineStep
    rw [if_pos hb]
  rw [h1]
  have h2 : ((get_remote_files listing).foldl (fun s f => setAdd f s)
      st.processedFiles).toFinset = (get_remote_files listing).toFinset := by
    rw [foldl_setAdd_toFinset, hempty]
    simp
  refine ⟨h2, ?_, rfl, rfl⟩
  intro f hf
  have hmem : f ∈ ((get_remote_files listing).foldl (fun s f => setAdd f s)
      st.processedFiles).toFinset := by
    rw [h2]
    exact List.mem_toFinset.mpr hf
  simpa using hmem

theorem baseline_marks_all_without_delivery_witness :
    (baselineStep ⟨[], ["x".data]⟩
        (RunOutcome.completed "a.jpg\nb.png".data 0)).1.processedFiles.toFinset =
      (get_remote_files (RunOutcome.completed "a.jpg\nb.png".data 0)).toFinset ∧
    (∀ f ∈ get_remote_files (RunOutcome.completed "a.jpg\nb.png".data 0),
      f ∈ (baselineStep ⟨[], ["x".data]⟩
        (RunOutcome.completed "a.jpg\nb.png".data 0)).1.processedFiles) ∧
    (baselineStep ⟨[], ["x".data]⟩
        (RunOutcome.completed "a.jpg\nb.png".data 0)).1.processedHashes =
      (⟨[], ["x".data]⟩ : WatcherState).processedHashes ∧
    (baselineStep ⟨[], ["x".data]⟩ (RunOutcome.completed "a.jpg\nb.png".data 0)).2 = [] :=
  baseline_marks_all_without_delivery ⟨[], ["x".data]⟩
    (RunOutcome.completed "a.jpg\nb.png".data 0) (by decide)

/-- Claim C5: when two differently named files carry byte-identical content and
the first has been processed and delivered, the second is detected as
duplicate content, its delivery is skipped, and its filename is still
marked processed. -/
theorem duplicate_content_skips_delivery
    (env : Env) (localPath : Str) (st : WatcherState) (f1 f2 l1 l2 : Str) (bytes : List Nat)
    (hne : f1 ≠ f2)
    (h1 : f1 ∉ st.processedFiles) (h2 : f2 ∉ st.processedFiles)
    (hp1 : pull_file (env.pullOutcome f1) env.fsExistsAfterPull f1 localPath = some l1)
    (hp2 : pull_file (env.pullOutcome f2) env.fsExistsAfterPull f2 localPath = some l2)
    (hc1 : env.contents l1 = some bytes) (hc2 : env.contents l2 = some bytes)
    (hfresh : env.digest bytes ∉ st.processedHashes) :
    Event.deliver f1 (send_to_bridge env l1 (env.post f1))
      ∈ (processFile env localPath st f1).2 ∧
    is_duplicate_content env (processFile env localPath st f1).1.processedHashes l2 = true ∧
    (∀ ok, Event.deliver f2 ok
      ∉ (processFile env localPath (processFile env localPath st f1).1 f2).2) ∧
    f2 ∈ (processFile env localPath (processFile env localPath st f1).1 f2).1.processedFiles := by
  have hhash1 : compute_file_hash env l1 = some (env.digest bytes) := by
    unfold compute_file_hash
    rw [hc1]
    rfl
  have hhash2 : compute_file_hash env l2 = some (env.digest bytes) := by
    unfold compute_file_hash
    rw [hc2]
    rfl
  have hnodup1 : is_duplicate_content env st.processedHashes l1 = false := by
    unfold is_duplicate_content
    rw [hhash1]
    simpa using hfresh
  have hst1 : processFile env localPath st f1 =
      (⟨setAdd f1 st.processedFiles, mark_content_processed env st.processedHashes l1⟩,
       [Event.fetch f1, Event.deliver f1 (send_to_bridge env l1 (env.post f1))]) :=
    processFile_deliver env localPath st f1 l1 h1 hp1 hnodup1
  have hmark : mark_content_processed env st.processedHashes l1 =
      setAdd (env.digest bytes) st.processedHashes := by
    unfold mark_content_processed
    rw [hhash1]
  have hdup2 : is_duplicate_content env
      (processFile env localPath st f1).1.processedHashes l2 = true := by
    rw [hst1]
    unfold is_duplicate_content
    rw [hhash2]
    simpa [hmark] using mem_setAdd_self (env.digest bytes) st.processedHashes
  have hf2 : f2 ∉ (processFile env localPath st f1).1.processedFiles := by
    rw [hst1]
    intro hmem
    rcases mem_setAdd_iff.mp hmem with rfl | hmem2
    · exact hne rfl
    · exact h2 hmem2
  have hstep2 : processFile env localPath (processFile env localPath st f1).1 f2 =
      (⟨setAdd f2 (processFile env localPath st f1).1.processedFiles,
        (processFile env localPath st f1).1.processedHashes⟩, [Event.fetch f2]) :=
    processFile_dup env localPath (processFile env localPath st f1).1 f2 l2 hf2 hp2 hdup2
  refine ⟨by rw [hst1]; simp, hdup2, ?_, ?_⟩
  · intro ok
    rw [hstep2]
    simp
  · rw [hstep2]
    exact mem_setAdd_self f2 _

theorem duplicate_content_skips_delivery_witness :
    Event.deliver "a.jpg".data
        (send_to_bridge envOK (pathJoin "loc".data "a.jpg".data) (envOK.post "a.jpg".data))
      ∈ (processFile envOK "loc".data ⟨[], []⟩ "a.jpg".data).2 ∧
    is_duplicate_content envOK
        (processFile envOK "loc".data ⟨[], []⟩ "a.jpg".data).1.processedHashes
        (pathJoin "loc".data "b.jpg".data) = true ∧
    (∀ ok, Event.deliver "b.jpg".data ok
      ∉ (processFile envOK "loc".data
          (processFile envOK "loc".data ⟨[], []⟩ "a.jpg".data).1 "b.jpg".data).2) ∧
    "b.jpg".data ∈ (processFile envOK "loc".data
        (processFile envOK "loc".data ⟨[], []⟩ "a.jpg".data).1 "b.jpg".data).1.processedFiles :=
  duplicate_content_skips_delivery envOK "loc".data ⟨[], []⟩
    "a.jpg".data "b.jpg".data (pathJoin "loc".data "a.jpg".data)
    (pathJoin "loc".data "b.jpg".data) [1]
    (by decide) (by decide) (by decide) (by decide) (by decide) (by decide) (by decide)
    (by decide)

theorem filterMap_listing_eq (lines : List Str) :
    lines.filterMap listingLineFilter = (lines.map strTrim).filter goodListingLine := by
  induction lines with
  | nil => rfl
  | cons l rest ih =>
    by_cases h : goodListingLine (strTrim l)
    · have hl : listingLineFilter l = some (strTrim l) := by
        simp [listingLineFilter, h]
      simp only [List.filterMap_cons, hl, List.map_cons, List.filter_cons, h, if_true]
      rw [ih]
    · have hl : listingLineFilter l = none := by
        simp [listingLineFilter, h]
      simp only [List.filterMap_cons, hl, List.map_cons, List.filter_cons]
      simp only [Bool.not_eq_true] at h
      simp only [h, Bool.false_eq_true, if_false]
      exact ih

/-- Claim C6: the listing filter keeps exactly the lines that, once stripped,
are non-empty, free of the listing-noise prefixes, and end in an allowed
image extension after lowering, in received order; on the listing
a.txt, b.jpg, total 12, ls: cannot access it yields exactly b.jpg. -/
theorem listing_filter_characterization :
    (∀ lines : List Str, lines.filterMap listingLineFilter =
      (lines.map strTrim).filter goodListingLine) ∧
    get_remote_files
        (RunOutcome.completed "a.txt\nb.jpg\ntotal 12\nls: cannot access".data 0) =
      ["b.jpg".data] :=
  ⟨filterMap_listing_eq, by decide⟩

/-- Claim C7: pull_file yields the local destination path exactly when the adb
command exited with status zero and the destination exists afterwards;
every other case, the timeout and exception paths included, yields none. -/
theorem pull_file_success_characterization
    (r : RunOutcome) (fs : Str → Bool) (filename localPath : Str) :
    (pull_file r fs filename localPath = some (pathJoin localPath filename) ↔
      (adb_command r).2 = 0 ∧ fs (pathJoin localPath filename) = true) ∧
    (pull_file r fs filename localPath = none ∨
      pull_file r fs filename localPath = some (pathJoin localPath filename)) ∧
    (∀ msg, pull_file (RunOutcome.raised msg) fs filename localPath = none) ∧
    pull_file RunOutcome.timedOut fs filename localPath = none := by
  refine ⟨?_, ?_, ?_, ?_⟩
  · simp only [pull_file]
    split
    next h => simp [h]
    next h => simp [h]
  · simp only [pull_file]
    split
    · right
      rfl
    · left
      rfl
  · intro msg
    simp only [pull_file]
    rw [if_neg]
    rintro ⟨h0, _⟩
    have hm : (adb_command (RunOutcome.raised msg)).2 = -1 := rfl
    rw [hm] at h0
    exact absurd h0 (by decide)
  · simp only [pull_file]
    rw [if_neg]
    rintro ⟨h0, _⟩
    have hm : (adb_command RunOutcome.timedOut).2 = -1 := rfl
    rw [hm] at h0
    exact absurd h0 (by decide)

theorem dedup_toFinset (l : List Str) : l.dedup.toFinset = l.toFinset := by
  ext x
  simp [List.mem_dedup]

/-- Claim C8: persisting the two ledger sets and loading them back with no
intervening mutation yields the same set of names and the same set of
hashes. -/
theorem persist_load_roundtrip (now : Str) (st : WatcherState) :
    (load_processed_data (save_processed_data now st)).processedFiles.toFinset =
      st.processedFiles.toFinset ∧
    (load_processed_data (save_processed_data now st)).processedHashes.toFinset =
      st.processedHashes.toFinset := by
  rw [load_save_processedFiles, load_save_processedHashes]
  exact ⟨dedup_toFinset _, dedup_toFinset _⟩

/-- Claim C9: when the digest of a fetched file cannot be computed, the
duplicate check answers false and the file still goes to the delivery
call instead of being skipped. -/
theorem hash_failure_proceeds_to_delivery
    (env : Env) (localPath : Str) (st : WatcherState) (f localFile : Str)
    (hf : f ∉ st.processedFiles)
    (hpull : pull_file (env.pullOutcome f) env.fsExistsAfterPull f localPath = some localFile)
    (hc : env.contents localFile = none) :
    is_duplicate_content env st.processedHashes localFile = false ∧
    Event.deliver f (send_to_bridge env localFile (env.post f))
      ∈ (processFile env localPath st f).2 := by
  have hhash : compute_file_hash env localFile = none := by
    unfold compute_file_hash
    rw [hc]
    rfl
  have hnodup : is_duplicate_content env st.processedHashes localFile = false := by
    unfold is_duplicate_content
    rw [hhash]
  refine ⟨hnodup, ?_⟩
  rw [processFile_deliver env localPath st f localFile hf hpull hnodup]
  simp

/-- A concrete environment where every local file is unreadable. -/
def envUnreadable : Env :=
  { contents := fun _ => none,
    digest := fun _ => [],
    pullOutcome := fun _ => RunOutcome.completed [] 0,
    fsExistsAfterPull := fun _ => true,
    post := fun _ => PostResult.response 200 true }

theorem hash_failure_proceeds_to_delivery_witness :
    is_duplicate_content envUnreadable ([] : List Str)
        (pathJoin "loc".data "a.jpg".data) = false ∧
    Event.deliver "a.jpg".data
        (send_to_bridge envUnreadable (pathJoin "loc".data "a.jpg".data)
          (envUnreadable.post "a.jpg".data))
      ∈ (processFile envUnreadable "loc".data ⟨[], []⟩ "a.jpg".data).2 :=
  hash_failure_proceeds_to_delivery envUnreadable "loc".data ⟨[], []⟩ "a.jpg".data
    (pathJoin "loc".data "a.jpg".data) (by decide) (by decide) (by decide)

/-- Claim C10: a failed digest computation leaves the hash set unchanged when
the content is marked processed, so the delivered content is never
recorded, and identical bytes arriving later under another name whose
digest is fresh are not flagged as duplicates. -/
theorem hash_failure_records_nothing
    (env : Env) (localPath : Str) (st : WatcherState) (f localFile l2 : Str) (bytes : List Nat)
    (hf : f ∉ st.processedFiles)
    (hpull : pull_file (env.pullOutcome f) env.fsExistsAfterPull f localPath = some localFile)
    (hc : env.contents localFile = none)
    (hl2 : env.contents l2 = some bytes)
    (hfresh : env.digest bytes ∉ st.processedHashes) :
    mark_content_processed env st.processedHashes localFile = st.processedHashes ∧
    (processFile env localPath st f).1.processedHashes = st.processedHashes ∧
    is_duplicate_content env (processFile env localPath st f).1.processedHashes l2 = false := by
  have hhash : compute_file_hash env localFile = none := by
    unfold compute_file_hash
    rw [hc]
    rfl
  have hmark : mark_content_processed env st.processedHashes localFile = st.processedHashes := by
    unfold mark_content_processed
    rw [hhash]
  have hnodup : is_duplicate_content env st.processedHashes localFile = false := by
    unfold is_duplicate_content
    rw [hhash]
  have hhash2 : compute_file_hash env l2 = some (env.digest bytes) := by
    unfold compute_file_hash
    rw [hl2]
    rfl
  refine ⟨hmark, ?_, ?_⟩
  · rw [processFile_deliver env localPath st f localFile hf hpull hnodup]
    exact hmark
  · rw [processFile_deliver env localPath st f localFile hf hpull hnodup]
    unfold is_duplicate_content
    rw [hhash2]
    simp only [hmark]
    simpa using hfresh

/-- A concrete environment where exactly one local file is unreadable and
every other file reads as the same two-valued content. -/
def envMixedRead : Env :=
  { contents := fun p => if p = pathJoin "loc".data "a.jpg".data then none else some [2],
    digest := fun _ => "h2".data,
    pullOutcome := fun _ => RunOutcome.completed [] 0,
    fsExistsAfterPull := fun _ => true,
    post := fun _ => PostResult.response 200 true }

theorem hash_failure_records_nothing_witness :
    mark_content_processed envMixedRead ([] : List Str)
        (pathJoin "loc".data "a.jpg".data) = [] ∧
    (processFile envMixedRead "loc".data ⟨[], []⟩ "a.jpg".data).1.processedHashes = [] ∧
    is_duplicate_content envMixedRead
        (processFile envMixedRead "loc".data ⟨[], []⟩ "a.jpg".data).1.processedHashes
        (pathJoin "loc".data "b.jpg".data) = false :=
  hash_failure_records_nothing envMixedRead "loc".data ⟨[], []⟩ "a.jpg".data
    (pathJoin "loc".data "a.jpg".data) (pathJoin "loc".data "b.jpg".data) [2]
    (by decide) (by decide) (by decide) (by decide) (by decide)

end AdbWatcher
